import Mathlib

/-!
Shallow embedding of the ETF RAG agent's ingestion/versioning and
retrieval/answering core (src/app/vector_store/weaviate_handler.py and
src/app/retriever/query_handler.py), together with theorems settling the
frozen claims about it.

Modelling conventions:
* Python dicts with string keys/values become insertion-ordered association
  lists (`PyDict`); `dict.update` overwrites existing keys in place and
  appends new ones, matching CPython semantics.
* The Weaviate client is external; its operations (`fetch_objects`,
  `near_vector`, `data.insert`, `data.delete_by_id`) are modelled over an
  explicit store state.  Each primitive consults an explicit fault
  configuration so that raised exceptions (store unreachable, etc.) can be
  injected; `Except.error` models a raised Python exception.
* Similarity certainties are rationals; the store-defined ranking of a
  nearest-neighbour query is an explicit parameter (`ranked`), because the
  vector index is approximate and the client contract only promises a
  ranked list, not the exact top-k by similarity.
* `hashlib.sha256(...).hexdigest()` is modelled by an injective
  deterministic stand-in; every claim settled here depends only on equal
  bodies yielding equal fingerprints, which any deterministic hash has.
-/

namespace ETFRag

/-- A Python `dict` with string keys and values: an insertion-ordered
association list without duplicate keys (as produced by dict literals and
`update`). -/
abbrev PyDict := List (String × String)

/-- `d[k]` lookup: first binding of `k`, if any. -/
def PyDict.get? (d : PyDict) (k : String) : Option String :=
  match d with
  | [] => none
  | (k', v) :: rest => if k' = k then some v else PyDict.get? rest k

/-- `d[k] = v`: overwrite the existing binding of `k` in place, else append,
exactly as CPython dict assignment does. -/
def PyDict.setItem (d : PyDict) (k v : String) : PyDict :=
  match d with
  | [] => [(k, v)]
  | (k', v') :: rest =>
    if k' = k then (k', v) :: rest else (k', v') :: PyDict.setItem rest k v

/-- `d.update(upd)`: assign each binding of `upd` into `d` in order. -/
def PyDict.update (d : PyDict) (upd : PyDict) : PyDict :=
  upd.foldl (fun acc kv => acc.setItem kv.1 kv.2) d

/-- One object stored in the Weaviate collection, with the property schema
created by `WeaviateHandler._ensure_collection` plus the store-assigned
object id (`uuid`).  `metadata_json` holds the parsed content of the
serialized `metadata_json` text property. -/
structure StoredDoc where
  uuid : Nat
  etf_code : String
  etf_name : String
  content : String
  content_hash : String
  date : String
  version : Nat
  source : String
  etf_type : String
  category : String
  metadata_json : PyDict
deriving Repr, DecidableEq

/-- The Weaviate collection: stored objects in insertion order, plus the
next fresh object id. -/
structure StoreState where
  docs : List StoredDoc
  nextUuid : Nat
deriving Repr, DecidableEq

/-- Fault injection for the external store client: a `some msg` entry makes
the corresponding client call raise an exception with that message. -/
structure Faults where
  fetchObjects : Option String
  nearVector : Option String
  dataInsert : Option String
  deleteById : Option String
deriving Repr, DecidableEq

/-- No injected faults: every store call succeeds. -/
def noFaults : Faults := ⟨none, none, none, none⟩

/-- `collection.query.fetch_objects(filters=..., limit=...)`: the stored
objects satisfying the filter, in store order, truncated at `limit` when one
is given. -/
def fetch_objects (f : Faults) (st : StoreState) (filt : StoredDoc → Bool)
    (limit : Option Nat) : Except String (List StoredDoc) :=
  match f.fetchObjects with
  | some e => .error e
  | none =>
    let matching := st.docs.filter filt
    .ok (match limit with
         | some n => matching.take n
         | none => matching)

/-- `collection.query.near_vector(near_vector=..., limit=..., filters=...)`:
the external vector index returns at most `limit` of the filter-matching
objects in a store-defined ranking.  The index is approximate, so the
client contract promises a ranked list but not the exact top-`limit` by
similarity; the ranking is therefore an explicit parameter `ranked`
(for an ideal exact index it is descending-certainty sorting). -/
def near_vector (f : Faults) (st : StoreState)
    (ranked : List StoredDoc → List StoredDoc)
    (limit : Nat) (filt : StoredDoc → Bool) : Except String (List StoredDoc) :=
  match f.nearVector with
  | some e => .error e
  | none => .ok ((ranked (st.docs.filter filt)).take limit)

/-- `collection.data.insert(properties=..., vector=...)`: append the new
object with a fresh store-assigned id and return that id. -/
def data_insert (f : Faults) (st : StoreState) (mk : Nat → StoredDoc) :
    Except String (Nat × StoreState) :=
  match f.dataInsert with
  | some e => .error e
  | none => .ok (st.nextUuid, ⟨st.docs ++ [mk st.nextUuid], st.nextUuid + 1⟩)

/-- `collection.data.delete_by_id(uuid)`: remove the object with that id. -/
def delete_by_id (f : Faults) (st : StoreState) (u : Nat) :
    Except String StoreState :=
  match f.deleteById with
  | some e => .error e
  | none => .ok ⟨st.docs.filter (fun d => d.uuid != u), st.nextUuid⟩

/-- The settings consulted by the handlers (src/app/config.py). -/
structure Settings where
  enable_duplicate_check : Bool
  keep_history : Bool
  similarity_threshold : ℚ
  top_k_results : Nat
deriving Repr, DecidableEq

/-- `WeaviateHandler._compute_content_hash`: stands in for
`hashlib.sha256(content.encode()).hexdigest()`.  It is injective and
deterministic; the claims settled here depend only on equal contents
yielding equal fingerprints, which any deterministic hash satisfies. -/
def compute_content_hash (content : String) : String :=
  "sha256:" ++ content

/-- `WeaviateHandler._check_duplicate`: fetch at most one object with the
same `etf_code` and `content_hash`; return whether one was found.  A raised
store exception is caught, logged, and turned into `False`. -/
def check_duplicate (f : Faults) (st : StoreState)
    (etf_code content_hash : String) : Bool :=
  match fetch_objects f st
      (fun d => d.etf_code == etf_code && d.content_hash == content_hash)
      (some 1) with
  | .ok objs => decide (0 < objs.length)
  | .error _ => false

/-- `WeaviateHandler._get_latest_version`: fetch objects with the given
`etf_code` **with `limit=1`** (as the source does), take the maximum
`version` among the fetched objects (at most one), or 0 if none or on a
caught store exception. -/
def get_latest_version (f : Faults) (st : StoreState) (etf_code : String) :
    Nat :=
  match fetch_objects f st (fun d => d.etf_code == etf_code) (some 1) with
  | .ok objs =>
    if objs.isEmpty then 0
    else (objs.map (fun d => d.version)).foldl max 0
  | .error _ => 0

/-- Store interactions performed by an ingestion call, for stating
side-effect claims (which queries ran, whether a write happened). -/
inductive StoreOp where
  | fetchDuplicate
  | fetchVersion
  | write
deriving Repr, DecidableEq

instance {ε α : Type} [DecidableEq ε] [DecidableEq α] :
    DecidableEq (Except ε α) := fun x y =>
  match x, y with
  | .ok a, .ok b =>
    if h : a = b then isTrue (by rw [h])
    else isFalse (by intro hc; cases hc; exact h rfl)
  | .ok _, .error _ => isFalse (by intro hc; cases hc)
  | .error _, .ok _ => isFalse (by intro hc; cases hc)
  | .error a, .error b =>
    if h : a = b then isTrue (by rw [h])
    else isFalse (by intro hc; cases hc; exact h rfl)

/-- Outcome of `WeaviateHandler.insert_document`:
* `result`: `.ok (some uuid)` on insert, `.ok none` on duplicate skip
  (Python `None`), `.error e` when a raised exception propagates;
* `store`: the store state after the call;
* `trace`: the store interactions performed, in order;
* `callerMeta`: the contents of the caller-supplied `additional_metadata`
  dict object after the call (the call may mutate it in place). -/
structure InsertResult where
  result : Except String (Option Nat)
  store : StoreState
  trace : List StoreOp
  callerMeta : Option PyDict
deriving Repr, DecidableEq

/-- `WeaviateHandler.insert_document`.  Faithful to the source:
* duplicate check runs when both the `check_duplicate` argument and
  `settings.enable_duplicate_check` hold, and a hit returns `None` with no
  write;
* the version is `_get_latest_version + 1` under `settings.keep_history`,
  else 1;
* `metadata = additional_metadata or {}` makes the merge target the
  caller's dict object exactly when a non-empty dict was supplied (an empty
  dict is falsy in Python, so a fresh dict is used and the caller's object
  is untouched); `metadata.update({...})` then overwrites the four keys;
* any exception raised by the store write is re-raised to the caller. -/
def insert_document (settings : Settings) (f : Faults) (st : StoreState)
    (etf_code etf_name content source etf_type category : String)
    (additional_metadata : Option PyDict) (check_dup : Bool) (now : String) :
    InsertResult :=
  let content_hash := compute_content_hash content
  if check_dup && settings.enable_duplicate_check &&
      check_duplicate f st etf_code content_hash then
    ⟨.ok none, st, [.fetchDuplicate], additional_metadata⟩
  else
    let dupTrace : List StoreOp :=
      if check_dup && settings.enable_duplicate_check then [.fetchDuplicate]
      else []
    let version :=
      if settings.keep_history then get_latest_version f st etf_code + 1
      else 1
    let verTrace : List StoreOp :=
      if settings.keep_history then [.fetchVersion] else []
    let metadata :=
      PyDict.update (additional_metadata.getD [])
        [("etf_code", etf_code), ("etf_name", etf_name),
         ("source", source), ("etf_type", etf_type)]
    let callerAfter : Option PyDict :=
      match additional_metadata with
      | some m => if m.isEmpty then some m else some metadata
      | none => none
    match data_insert f st (fun u =>
        ⟨u, etf_code, etf_name, content, content_hash, now, version,
         source, etf_type, category, metadata⟩) with
    | .ok (u, st') =>
      ⟨.ok (some u), st', dupTrace ++ verTrace ++ [.write], callerAfter⟩
    | .error e =>
      ⟨.error e, st, dupTrace ++ verTrace, callerAfter⟩

/-- The metadata dict built for each search hit by `WeaviateHandler.search`:
the named scalar properties plus the parsed `metadata_json` entries
(`extra`).  In the source the parsed entries are spliced over the named
keys; documents inserted by this handler always store the same values for
the shared keys, so the named fields are authoritative. -/
structure ResultMeta where
  etf_code : String
  etf_name : String
  date : String
  version : Nat
  source : String
  etf_type : String
  category : String
  extra : PyDict
deriving Repr, DecidableEq

/-- One formatted search hit returned by `WeaviateHandler.search`. -/
structure SearchResult where
  uuid : Nat
  content : String
  certainty : ℚ
  metadata : ResultMeta
deriving Repr, DecidableEq

/-- Equality filter conditions, conjoined as in `WeaviateHandler.search`. -/
abbrev Filters := List (String × String)

/-- `Filter.by_property(key).equal(value)` lookup on the text properties. -/
def StoredDoc.getProp (d : StoredDoc) (k : String) : Option String :=
  if k = "etf_code" then some d.etf_code
  else if k = "etf_name" then some d.etf_name
  else if k = "content" then some d.content
  else if k = "content_hash" then some d.content_hash
  else if k = "date" then some d.date
  else if k = "source" then some d.source
  else if k = "etf_type" then some d.etf_type
  else if k = "category" then some d.category
  else none

/-- Conjunction of all equality filter conditions. -/
def matchesFilters (d : StoredDoc) (fs : Filters) : Bool :=
  fs.all (fun kv => d.getProp kv.1 == some kv.2)

/-- The filter predicate `WeaviateHandler.search` builds from its optional
`filters` argument (`None` means no filtering). -/
def filterPred (filters : Option Filters) : StoredDoc → Bool :=
  fun d =>
    match filters with
    | some fs => matchesFilters d fs
    | none => true

/-- Formatting of one fetched object into a search hit; `certainty` is the
similarity the store reports for the object against the query vector. -/
def toSearchResult (certaintyOf : StoredDoc → ℚ) (d : StoredDoc) :
    SearchResult :=
  ⟨d.uuid, d.content, certaintyOf d,
   ⟨d.etf_code, d.etf_name, d.date, d.version, d.source, d.etf_type,
    d.category, d.metadata_json⟩⟩

/-- The documents fetched by the store for a nearest-neighbour query:
at most `limit` of the filter-matching documents, in the store-defined
ranking (`WeaviateHandler.search` step `collection.query.near_vector`). -/
def fetchedDocs (st : StoreState) (ranked : List StoredDoc → List StoredDoc)
    (limit : Nat) (filters : Option Filters) : List StoredDoc :=
  ((ranked (st.docs.filter (filterPred filters))).take limit)

/-- `WeaviateHandler.search`: fetch up to `limit` matching documents from
the store, then keep only those whose reported certainty is at least
`min_certainty` (the cap is applied by the store before the threshold
filter).  A raised store exception is re-raised to the caller. -/
def search (f : Faults) (st : StoreState)
    (certaintyOf : StoredDoc → ℚ) (ranked : List StoredDoc → List StoredDoc)
    (limit : Nat) (filters : Option Filters) (min_certainty : ℚ) :
    Except String (List SearchResult) :=
  match f.nearVector with
  | some e => .error e
  | none =>
    .ok (((fetchedDocs st ranked limit filters).map
            (toSearchResult certaintyOf)).filter
          (fun r => decide (min_certainty ≤ r.certainty)))

/-- The embedding/generation provider as seen by `RAGQueryHandler.query`:
`scoreOf q d` is the certainty the store reports for document `d` against
the embedding of question `q` (the composition of `get_embedding` with the
store's similarity); `generate` is `generate_with_context` on the question,
the context documents, and the temperature. -/
structure RagModel where
  scoreOf : String → StoredDoc → ℚ
  generate : String → List (String × ResultMeta) → ℚ → String

/-- One ranked source citation in the response of `RAGQueryHandler.query`. -/
structure SourceCitation where
  rank : Nat
  etf_name : String
  etf_code : String
  source : String
  date : String
  relevance : ℚ
  preview : String
deriving Repr, DecidableEq

/-- The response dict built by `RAGQueryHandler.query`.  The no-result
branch omits the `question` key, hence the `Option`. -/
structure QueryResponse where
  answer : String
  sources : List SourceCitation
  num_sources : Nat
  model_type : String
  question : Option String
deriving Repr, DecidableEq

/-- The fixed no-grounding answer of `RAGQueryHandler.query`. -/
def no_results_answer : String :=
  "죄송합니다. 질문과 관련된 ETF 정보를 찾을 수 없습니다."

/-- `RAGQueryHandler.query` together with the number of calls it made to
the generation provider (`generate_with_context`).  Any exception raised by
a provider or store call is re-raised to the caller. -/
def RAGQuery (settings : Settings) (f : Faults) (st : StoreState)
    (model : RagModel) (ranked : List StoredDoc → List StoredDoc)
    (model_type question : String) (top_k : Option Nat)
    (filters : Option Filters) (temperature : ℚ) :
    Except String (QueryResponse × Nat) :=
  let k := top_k.getD settings.top_k_results
  match search f st (model.scoreOf question) ranked k filters
      settings.similarity_threshold with
  | .error e => .error e
  | .ok results =>
    if results.isEmpty then
      .ok (⟨no_results_answer, [], 0, model_type, none⟩, 0)
    else
      let context_docs := results.map (fun r => (r.content, r.metadata))
      let answer := model.generate question context_docs temperature
      let sources := (results.enumFrom 1).map (fun p =>
        SourceCitation.mk p.1 p.2.metadata.etf_name p.2.metadata.etf_code
          p.2.metadata.source p.2.metadata.date p.2.certainty
          (p.2.content.take 200 ++ "..."))
      .ok (⟨answer, sources, sources.length, model_type, some question⟩, 1)

/-- The summary dict built by `RAGQueryHandler.get_etf_summary`. -/
structure EtfSummary where
  etf_code : String
  etf_name : String
  etf_type : String
  category : String
  source : String
  last_updated : String
  content_preview : String
  num_versions : Nat
deriving Repr, DecidableEq

/-- `RAGQueryHandler.get_etf_summary`: search with a dummy zero vector
(whose reported certainties `dummyScore` carry no meaning), `limit=10`, a
filter on `etf_code`, and `min_certainty=0.0`; return `None` when nothing
is found; otherwise summarize `results[0]`, the first hit in the
store-defined ranking.  A raised exception is caught and turned into
`None`. -/
def get_etf_summary (f : Faults) (st : StoreState)
    (dummyScore : StoredDoc → ℚ) (ranked : List StoredDoc → List StoredDoc)
    (etf_code : String) : Option EtfSummary :=
  match search f st dummyScore ranked 10 (some [("etf_code", etf_code)]) 0 with
  | .error _ => none
  | .ok [] => none
  | .ok (latest :: rest) =>
    some ⟨etf_code, latest.metadata.etf_name, latest.metadata.etf_type,
          latest.metadata.category, latest.metadata.source,
          latest.metadata.date, latest.content.take 500 ++ "...",
          (latest :: rest).length⟩

/-- The deletion loop of `WeaviateHandler.delete_old_versions`: delete the
listed objects one by one; a raised exception stops the loop, leaving the
deletions already performed in place, and is reported alongside the
state reached. -/
def deleteLoop (f : Faults) : List StoredDoc → StoreState →
    StoreState × Option String
  | [], s => (s, none)
  | d :: rest, s =>
    match delete_by_id f s d.uuid with
    | .ok s' => deleteLoop f rest s'
    | .error e => (s, some e)

/-- The version-descending order used by `delete_old_versions`
(`sorted(..., key=version, reverse=True)`). -/
def versionGE (a b : StoredDoc) : Prop := b.version ≤ a.version

instance : DecidableRel versionGE := fun a b =>
  inferInstanceAs (Decidable (b.version ≤ a.version))

instance : IsTotal StoredDoc versionGE :=
  ⟨fun a b => le_total b.version a.version⟩

instance : IsTrans StoredDoc versionGE :=
  ⟨fun _ _ _ hab hbc => le_trans hbc hab⟩

/-- `WeaviateHandler.delete_old_versions`: fetch all objects with the given
`etf_code`, return unchanged if there are at most `keep_versions` of them,
otherwise sort them by `version` descending and delete all but the first
`keep_versions`.  The whole body is wrapped in a catch-all that logs and
swallows any raised exception, so the caller always receives a normal
(`.ok`) outcome. -/
def delete_old_versions (f : Faults) (st : StoreState) (etf_code : String)
    (keep_versions : Nat) : Except String StoreState :=
  match fetch_objects f st (fun d => d.etf_code == etf_code) none with
  | .error _ => .ok st
  | .ok objs =>
    if objs.length ≤ keep_versions then .ok st
    else
      let versions := objs.insertionSort versionGE
      .ok (deleteLoop f (versions.drop keep_versions) st).1

/-- A candidate document as handed to
`WeaviateHandler.insert_documents_batch`: a dict that may be missing
required keys.  `doc["key"]` on a missing key raises `KeyError` before
`insert_document` is ever entered. -/
structure Candidate where
  etf_code : Option String
  etf_name : Option String
  content : Option String
  hasVector : Bool
  source : Option String
  etf_type : Option String
  category : Option String
  metadata : Option PyDict
deriving Repr, DecidableEq

/-- The per-candidate step of `WeaviateHandler.insert_documents_batch`:
extract the required fields (`doc["etf_code"]`, `doc["etf_name"]`,
`doc["content"]`, `doc["vector"]`, `doc["source"]`, `doc["etf_type"]`,
with `doc.get` defaults for `category` and `metadata`) and call
`insert_document`.  A missing required key raises `KeyError` before any
store interaction: the store is untouched and the trace is empty. -/
def submit_candidate (settings : Settings) (f : Faults) (st : StoreState)
    (c : Candidate) (check_dup : Bool) (now : String) : InsertResult :=
  match c.etf_code with
  | none => ⟨.error "KeyError: etf_code", st, [], c.metadata⟩
  | some code =>
    match c.etf_name with
    | none => ⟨.error "KeyError: etf_name", st, [], c.metadata⟩
    | some nm =>
      match c.content with
      | none => ⟨.error "KeyError: content", st, [], c.metadata⟩
      | some body =>
        if !c.hasVector then ⟨.error "KeyError: vector", st, [], c.metadata⟩
        else
          match c.source with
          | none => ⟨.error "KeyError: source", st, [], c.metadata⟩
          | some src =>
            match c.etf_type with
            | none => ⟨.error "KeyError: etf_type", st, [], c.metadata⟩
            | some ty =>
              insert_document settings f st code nm body src ty
                (c.category.getD "") c.metadata check_dup now

/-- A low-similarity document for the cap-before-threshold scenario. -/
def c3_low : StoredDoc :=
  ⟨0, "A", "a", "low body", "h1", "d", 1, "s", "t", "", []⟩

/-- A high-similarity document for the cap-before-threshold scenario. -/
def c3_high : StoredDoc :=
  ⟨1, "B", "b", "high body", "h2", "d", 1, "s", "t", "", []⟩

/-- Certainties for the cap-before-threshold scenario: the store reports
0 for `c3_low` and 1 for `c3_high`. -/
def c3_score : StoredDoc → ℚ := fun d => if d.uuid = 0 then 0 else 1

/-- Store for the summarize scenario: identifier "069500" has two stored
versions; the version-1 document sits first in the store-defined ranking
of the dummy-vector search. -/
def c5_store2 : StoreState :=
  ⟨[⟨0, "069500", "KODEX v1", "OLD", "h1", "d1", 1, "test", "domestic",
     "cat", []⟩,
    ⟨1, "069500", "KODEX v2", "NEW", "h2", "d2", 2, "test", "domestic",
     "cat", []⟩], 2⟩

/-- Store for the summarize version-count scenario: identifier "X" has
eleven stored versions. -/
def c5_store11 : StoreState :=
  ⟨[⟨0, "X", "n", "c", "h", "d", 1, "s", "t", "", []⟩,
    ⟨1, "X", "n", "c", "h", "d", 2, "s", "t", "", []⟩,
    ⟨2, "X", "n", "c", "h", "d", 3, "s", "t", "", []⟩,
    ⟨3, "X", "n", "c", "h", "d", 4, "s", "t", "", []⟩,
    ⟨4, "X", "n", "c", "h", "d", 5, "s", "t", "", []⟩,
    ⟨5, "X", "n", "c", "h", "d", 6, "s", "t", "", []⟩,
    ⟨6, "X", "n", "c", "h", "d", 7, "s", "t", "", []⟩,
    ⟨7, "X", "n", "c", "h", "d", 8, "s", "t", "", []⟩,
    ⟨8, "X", "n", "c", "h", "d", 9, "s", "t", "", []⟩,
    ⟨9, "X", "n", "c", "h", "d", 10, "s", "t", "", []⟩,
    ⟨10, "X", "n", "c", "h", "d", 11, "s", "t", "", []⟩], 11⟩

/-- Store for the prune scenario: identifier "X" has three stored versions
1, 2, 3 and an unrelated identifier "Y" has one. -/
def c6_store : StoreState :=
  ⟨[⟨0, "X", "n", "a", "h", "d", 1, "s", "t", "", []⟩,
    ⟨1, "Y", "n", "b", "h", "d", 1, "s", "t", "", []⟩,
    ⟨2, "X", "n", "c", "h", "d", 2, "s", "t", "", []⟩,
    ⟨3, "X", "n", "e", "h", "d", 3, "s", "t", "", []⟩], 4⟩

/-- The store left by pruning `c6_store` to one version of "X": the
version-3 document of "X" and the untouched "Y" document remain. -/
def c6_pruned : StoreState :=
  ⟨[⟨1, "Y", "n", "b", "h", "d", 1, "s", "t", "", []⟩,
    ⟨3, "X", "n", "e", "h", "d", 3, "s", "t", "", []⟩], 4⟩

/-! ### Helper lemmas -/

theorem PyDict.get?_setItem_self (d : PyDict) (k v : String) :
    (d.setItem k v).get? k = some v := by
  induction d with
  | nil => simp [PyDict.setItem, PyDict.get?]
  | cons kv rest ih =>
    obtain ⟨k', v'⟩ := kv
    by_cases h : k' = k
    · simp [PyDict.setItem, h, PyDict.get?]
    · simp [PyDict.setItem, h, PyDict.get?, ih]

theorem PyDict.get?_setItem_ne (d : PyDict) {k k' : String} (v : String)
    (h : k' ≠ k) : (d.setItem k v).get? k' = d.get? k' := by
  induction d with
  | nil =>
    have hne : ¬(k = k') := fun hh => h hh.symm
    simp [PyDict.setItem, PyDict.get?, hne]
  | cons kv rest ih =>
    obtain ⟨k'', v''⟩ := kv
    by_cases hk : k'' = k
    · subst hk
      have hne : ¬(k'' = k') := fun hh => h hh.symm
      simp [PyDict.setItem, PyDict.get?, hne]
    · simp [PyDict.setItem, hk, PyDict.get?, ih]

theorem nodup_map_inj {α β : Type} {f : α → β} {l : List α}
    (h : (l.map f).Nodup) {a b : α} (ha : a ∈ l) (hb : b ∈ l)
    (hf : f a = f b) : a = b :=
  (List.nodup_map_iff_inj_on (List.Nodup.of_map f h)).mp h a ha b hb hf

theorem fetch_objects_noFaults (st : StoreState) (filt : StoredDoc → Bool)
    (limit : Option Nat) :
    fetch_objects noFaults st filt limit =
      .ok (match limit with
           | some n => (st.docs.filter filt).take n
           | none => st.docs.filter filt) := rfl

theorem data_insert_noFaults (st : StoreState) (mk : Nat → StoredDoc) :
    data_insert noFaults st mk =
      .ok (st.nextUuid, ⟨st.docs ++ [mk st.nextUuid], st.nextUuid + 1⟩) :=
  rfl

theorem check_duplicate_true_of_mem {st : StoreState} {code h : String}
    (hex : ∃ d ∈ st.docs, d.etf_code = code ∧ d.content_hash = h) :
    check_duplicate noFaults st code h = true := by
  obtain ⟨d, hd, hc, hh⟩ := hex
  have hmem : d ∈ st.docs.filter
      (fun x => x.etf_code == code && x.content_hash == h) :=
    List.mem_filter.mpr ⟨hd, by simp [hc, hh]⟩
  have hpos : 0 < (st.docs.filter
      (fun x => x.etf_code == code && x.content_hash == h)).length :=
    List.length_pos.mpr (List.ne_nil_of_mem hmem)
  have htake : 0 < ((st.docs.filter
      (fun x => x.etf_code == code && x.content_hash == h)).take 1).length := by
    rw [List.length_take]
    exact lt_min_iff.mpr ⟨Nat.one_pos, hpos⟩
  simp only [check_duplicate, fetch_objects, noFaults]
  exact decide_eq_true htake

theorem deleteLoop_noFaults (ds : List StoredDoc) (s : StoreState) :
    deleteLoop noFaults ds s =
      (⟨ds.foldl (fun acc e => acc.filter (fun d => d.uuid != e.uuid))
          s.docs, s.nextUuid⟩, none) := by
  induction ds generalizing s with
  | nil => rfl
  | cons e rest ih =>
    have h1 : deleteLoop noFaults (e :: rest) s =
        deleteLoop noFaults rest
          ⟨s.docs.filter (fun d => d.uuid != e.uuid), s.nextUuid⟩ := rfl
    rw [h1, ih]
    rfl

theorem foldl_filter_all (ds : List StoredDoc) (l : List StoredDoc) :
    ds.foldl (fun acc e => acc.filter (fun d => d.uuid != e.uuid)) l =
      l.filter (fun d => ds.all (fun e => d.uuid != e.uuid)) := by
  induction ds generalizing l with
  | nil => simp
  | cons e rest ih =>
    rw [List.foldl_cons, ih, List.filter_filter]
    apply List.filter_congr
    intro x _
    simp [Bool.and_comm]

/-! ### Claim theorems -/

/-- C1: the claim says that with history retention enabled each submission
is assigned one plus the maximum stored version for its identifier, so
three sequential submissions with the same identifier and distinct bodies
get versions 1, 2, 3.  The code contradicts this (and its own
`# Get max version` comment): `_get_latest_version` fetches with
`limit=1`, so it reads the version of a single arbitrary fetched object,
not the maximum.  Evaluating the embedded code on three sequential
submissions of bodies "A", "B", "C" for identifier "069500" into an empty
store (history retention and duplicate checking both enabled) assigns
versions 1, 2, 2 — the third submission reads the version-1 object and
assigns 2 again instead of 3. -/
theorem c1_third_submission_gets_version_two_not_three :
    ((insert_document ⟨true, true, 7/10, 5⟩ noFaults
        ((insert_document ⟨true, true, 7/10, 5⟩ noFaults
            ((insert_document ⟨true, true, 7/10, 5⟩ noFaults ⟨[], 0⟩
                "069500" "KODEX 200" "A" "test" "domestic" "" none true
                "d1").store)
            "069500" "KODEX 200" "B" "test" "domestic" "" none true
            "d2").store)
        "069500" "KODEX 200" "C" "test" "domestic" "" none true
        "d3").store.docs.map StoredDoc.version) = [1, 2, 2] ∧
    (insert_document ⟨true, true, 7/10, 5⟩ noFaults
        ((insert_document ⟨true, true, 7/10, 5⟩ noFaults
            ((insert_document ⟨true, true, 7/10, 5⟩ noFaults ⟨[], 0⟩
                "069500" "KODEX 200" "A" "test" "domestic" "" none true
                "d1").store)
            "069500" "KODEX 200" "B" "test" "domestic" "" none true
            "d2").store)
        "069500" "KODEX 200" "C" "test" "domestic" "" none true
        "d3").result = .ok (some 2) := by
  exact ⟨rfl, rfl⟩

/-- C4: when zero retrieved documents pass the similarity threshold, the
answering operation returns the fixed no-grounding answer, an empty source
list with source count zero, and makes zero calls to the generation
provider. -/
theorem c4_no_grounding_returns_fixed_answer_without_generation
    (settings : Settings) (st : StoreState) (model : RagModel)
    (ranked : List StoredDoc → List StoredDoc)
    (model_type question : String) (top_k : Option Nat)
    (filters : Option Filters) (temperature : ℚ)
    (h : search noFaults st (model.scoreOf question) ranked
        (top_k.getD settings.top_k_results) filters
        settings.similarity_threshold = .ok []) :
    RAGQuery settings noFaults st model ranked model_type question top_k
        filters temperature =
      .ok (⟨no_results_answer, [], 0, model_type, none⟩, 0) := by
  simp [RAGQuery, h]

/-- Witness for C4 at a concrete input: the empty store retrieves nothing,
so the answering operation returns the fixed no-grounding response with
zero generation calls. -/
theorem c4_witness :
    RAGQuery ⟨true, true, 7/10, 5⟩ noFaults ⟨[], 0⟩
        ⟨fun _ _ => 1, fun _ _ _ => "generated"⟩ id "openai" "질문" none
        none (7/10) =
      .ok (⟨no_results_answer, [], 0, "openai", none⟩, 0) :=
  c4_no_grounding_returns_fixed_answer_without_generation
    ⟨true, true, 7/10, 5⟩ ⟨[], 0⟩ ⟨fun _ _ => 1, fun _ _ _ => "generated"⟩
    id "openai" "질문" none none (7/10) rfl

/-- C7: a candidate missing its required identifier (`etf_code`) or body
(`content`) field is rejected before any store interaction: the submit
step raises a `KeyError`, the store state is unchanged, and the
interaction trace is empty (no duplicate query, no version lookup, no
write). -/
theorem c7_malformed_candidate_rejected_before_any_store_interaction
    (settings : Settings) (f : Faults) (st : StoreState) (c : Candidate)
    (check_dup : Bool) (now : String)
    (h : c.etf_code = none ∨ c.content = none) :
    (submit_candidate settings f st c check_dup now).store = st ∧
    (submit_candidate settings f st c check_dup now).trace = [] ∧
    ∃ msg, (submit_candidate settings f st c check_dup now).result =
      .error msg := by
  obtain ⟨oc, onm, ob, hv, os, ot, ocat, om⟩ := c
  rcases h with h | h
  · simp only at h
    subst h
    exact ⟨rfl, rfl, "KeyError: etf_code", rfl⟩
  · simp only at h
    subst h
    cases oc with
    | none => exact ⟨rfl, rfl, "KeyError: etf_code", rfl⟩
    | some code =>
      cases onm with
      | none => exact ⟨rfl, rfl, "KeyError: etf_name", rfl⟩
      | some nm => exact ⟨rfl, rfl, "KeyError: content", rfl⟩

/-- Witness for C7 at a concrete input: a candidate with an identifier but
no body is rejected with the store untouched and an empty trace. -/
theorem c7_witness :
    (submit_candidate ⟨true, true, 7/10, 5⟩ noFaults ⟨[], 0⟩
        ⟨some "069500", some "KODEX 200", none, true, some "test",
         some "domestic", none, none⟩ true "d1").store = (⟨[], 0⟩ : StoreState) ∧
    (submit_candidate ⟨true, true, 7/10, 5⟩ noFaults ⟨[], 0⟩
        ⟨some "069500", some "KODEX 200", none, true, some "test",
         some "domestic", none, none⟩ true "d1").trace = [] ∧
    ∃ msg, (submit_candidate ⟨true, true, 7/10, 5⟩ noFaults ⟨[], 0⟩
        ⟨some "069500", some "KODEX 200", none, true, some "test",
         some "domestic", none, none⟩ true "d1").result = .error msg :=
  c7_malformed_candidate_rejected_before_any_store_interaction
    ⟨true, true, 7/10, 5⟩ noFaults ⟨[], 0⟩
    ⟨some "069500", some "KODEX 200", none, true, some "test",
     some "domestic", none, none⟩ true "d1" (Or.inr rfl)

/-- C8 counterexample: the claim says every failure raised by a store call
propagates unmodified to the operation's immediate caller, with no silent
swallowing outside the no-grounding case.  In the code,
`delete_old_versions` (prune) wraps its whole body in a catch-all that
only logs: here the store's fetch raises "store unreachable", yet the
caller receives the normal `.ok` outcome with the store unchanged — the
failure is swallowed, not propagated. -/
theorem c8_counterexample_prune_swallows_store_failure :
    delete_old_versions ⟨some "store unreachable", none, none, none⟩
        ⟨[⟨0, "X", "n", "c1", "h1", "d1", 1, "s", "t", "", []⟩,
          ⟨1, "X", "n", "c2", "h2", "d2", 2, "s", "t", "", []⟩], 2⟩
        "X" 1 =
      .ok ⟨[⟨0, "X", "n", "c1", "h1", "d1", 1, "s", "t", "", []⟩,
            ⟨1, "X", "n", "c2", "h2", "d2", 2, "s", "t", "", []⟩], 2⟩ := rfl

/-- C8 amended: failures raised by the store write inside submit and by
the store search inside answer propagate unmodified to the caller; but
failures inside submit's duplicate query and version lookup are swallowed
(treated as "no duplicate" / "no existing version"), and failures inside
prune and summarize are caught and converted to a normal no-op return
(`.ok` with the store unchanged) and a "not found" `none` respectively.
Stated for a store whose every primitive raises. -/
theorem c8_amended_propagation_policy
    (settings : Settings) (st : StoreState)
    (code nm body src ty cat : String) (am : Option PyDict) (check : Bool)
    (now : String) (model : RagModel)
    (ranked : List StoredDoc → List StoredDoc) (mt q : String)
    (tk : Option Nat) (fs : Option Filters) (temp : ℚ)
    (dscore : StoredDoc → ℚ) (keep : Nat) (e1 e2 e3 e4 : String) :
    ((insert_document settings ⟨some e1, some e2, some e3, some e4⟩ st
        code nm body src ty cat am check now).result = .error e3) ∧
    (RAGQuery settings ⟨some e1, some e2, some e3, some e4⟩ st model
        ranked mt q tk fs temp = .error e2) ∧
    (delete_old_versions ⟨some e1, some e2, some e3, some e4⟩ st code
        keep = .ok st) ∧
    (get_etf_summary ⟨some e1, some e2, some e3, some e4⟩ st dscore
        ranked code = none) := by
  refine ⟨?_, rfl, rfl, rfl⟩
  simp [insert_document, check_duplicate, fetch_objects, data_insert]

/-- C10 counterexample: the claim says the caller's additional-metadata
mapping is always mutated in place by the merge on a successful submit.
But `metadata = additional_metadata or {}` treats an empty dict as falsy:
when the caller supplies an empty mapping, the merge happens on a fresh
dict, the submit succeeds, and the caller's mapping is left empty — it
does not receive the `etf_code` (or any other) key. -/
theorem c10_counterexample_empty_mapping_not_mutated :
    (insert_document ⟨true, true, 7/10, 5⟩ noFaults ⟨[], 0⟩ "X" "NameX"
        "bodyX" "srcX" "typeX" "" (some []) true "d1").result =
      .ok (some 0) ∧
    (insert_document ⟨true, true, 7/10, 5⟩ noFaults ⟨[], 0⟩ "X" "NameX"
        "bodyX" "srcX" "typeX" "" (some []) true "d1").callerMeta =
      some [] ∧
    PyDict.get? [] "etf_code" = none :=
  ⟨rfl, rfl, rfl⟩

/-- C2: with duplicate-checking enabled, a second submission with the same
identifier and body as an already-inserted document is skipped: it returns
`None` (no store id), performs zero writes, and leaves the store — hence
its document count — unchanged.  The other fields of the second submission
(display name, source, type, category, metadata, timestamp) may differ. -/
theorem c2_duplicate_submission_skipped_without_write
    (settings : Settings) (st : StoreState)
    (code nm body src ty cat : String) (am : Option PyDict) (now : String)
    (nm2 src2 ty2 cat2 : String) (am2 : Option PyDict) (now2 : String)
    (u : Nat) (henable : settings.enable_duplicate_check = true)
    (hfirst : (insert_document settings noFaults st code nm body src ty
        cat am true now).result = .ok (some u)) :
    (insert_document settings noFaults
        (insert_document settings noFaults st code nm body src ty cat am
          true now).store
        code nm2 body src2 ty2 cat2 am2 true now2).result = .ok none ∧
    (insert_document settings noFaults
        (insert_document settings noFaults st code nm body src ty cat am
          true now).store
        code nm2 body src2 ty2 cat2 am2 true now2).store =
      (insert_document settings noFaults st code nm body src ty cat am
        true now).store ∧
    (insert_document settings noFaults
        (insert_document settings noFaults st code nm body src ty cat am
          true now).store
        code nm2 body src2 ty2 cat2 am2 true now2).trace.count
      StoreOp.write = 0 := by
  by_cases hdup : check_duplicate noFaults st code
      (compute_content_hash body) = true
  · simp [insert_document, henable, hdup] at hfirst
  · have hdup' : check_duplicate noFaults st code
        (compute_content_hash body) = false := by
      simp only [Bool.not_eq_true] at hdup
      exact hdup
    set st1 := (insert_document settings noFaults st code nm body src ty
      cat am true now).store with hst1
    have hstore : st1 =
        ⟨st.docs ++
          [⟨st.nextUuid, code, nm, body, compute_content_hash body, now,
            (if settings.keep_history then
              get_latest_version noFaults st code + 1 else 1),
            src, ty, cat,
            PyDict.update (am.getD [])
              [("etf_code", code), ("etf_name", nm), ("source", src),
               ("etf_type", ty)]⟩],
          st.nextUuid + 1⟩ := by
      rw [hst1]
      simp [insert_document, henable, hdup', data_insert_noFaults]
    have hdup2 : check_duplicate noFaults st1 code
        (compute_content_hash body) = true := by
      apply check_duplicate_true_of_mem
      refine ⟨⟨st.nextUuid, code, nm, body, compute_content_hash body, now,
        (if settings.keep_history then
          get_latest_version noFaults st code + 1 else 1),
        src, ty, cat,
        PyDict.update (am.getD [])
          [("etf_code", code), ("etf_name", nm), ("source", src),
           ("etf_type", ty)]⟩, ?_, rfl, rfl⟩
      rw [hstore]
      exact List.mem_append_right _ (List.mem_singleton_self _)
    refine ⟨?_, ?_, ?_⟩ <;> simp [insert_document, henable, hdup2]

/-- Witness for C2 at a concrete input: inserting body "A" for identifier
"069500" into the empty store and then submitting the same identifier and
body again returns `None`, leaves the store unchanged, and performs no
write. -/
theorem c2_witness :
    (insert_document ⟨true, true, 7/10, 5⟩ noFaults
        (insert_document ⟨true, true, 7/10, 5⟩ noFaults ⟨[], 0⟩ "069500"
          "KODEX 200" "A" "test" "domestic" "" none true "d1").store
        "069500" "KODEX 200" "A" "test" "domestic" "" none true
        "d2").result = .ok none ∧
    (insert_document ⟨true, true, 7/10, 5⟩ noFaults
        (insert_document ⟨true, true, 7/10, 5⟩ noFaults ⟨[], 0⟩ "069500"
          "KODEX 200" "A" "test" "domestic" "" none true "d1").store
        "069500" "KODEX 200" "A" "test" "domestic" "" none true
        "d2").store =
      (insert_document ⟨true, true, 7/10, 5⟩ noFaults ⟨[], 0⟩ "069500"
        "KODEX 200" "A" "test" "domestic" "" none true "d1").store ∧
    (insert_document ⟨true, true, 7/10, 5⟩ noFaults
        (insert_document ⟨true, true, 7/10, 5⟩ noFaults ⟨[], 0⟩ "069500"
          "KODEX 200" "A" "test" "domestic" "" none true "d1").store
        "069500" "KODEX 200" "A" "test" "domestic" "" none true
        "d2").trace.count StoreOp.write = 0 :=
  c2_duplicate_submission_skipped_without_write
    ⟨true, true, 7/10, 5⟩ ⟨[], 0⟩ "069500" "KODEX 200" "A" "test"
    "domestic" "" none "d1" "KODEX 200" "test" "domestic" "" none "d2" 0
    rfl rfl

/-- C3: the answering operation's store search fetches at most `top_k`
filter-matching documents first (in the store-defined ranking) and only
then retains those whose certainty reaches the threshold, so the result
list is the threshold-filter of the capped fetch, its length never exceeds
`top_k`, and every retained result meets the threshold.  Because the cap
precedes the threshold filter, the result count can fall short of `top_k`
even though qualifying documents exist: concretely, with two documents of
certainty 0 and 1, a store ranking that fetches the certainty-0 document
for `top_k = 1`, and threshold 1, the search returns zero results although
one qualifying document is in the store. -/
theorem c3_cap_applied_before_threshold_filter :
    (∀ (st : StoreState) (cf : StoredDoc → ℚ)
        (ranked : List StoredDoc → List StoredDoc) (k : Nat)
        (fs : Option Filters) (th : ℚ),
      search noFaults st cf ranked k fs th =
        .ok (((fetchedDocs st ranked k fs).map (toSearchResult cf)).filter
          (fun r => decide (th ≤ r.certainty))) ∧
      (((fetchedDocs st ranked k fs).map (toSearchResult cf)).filter
          (fun r => decide (th ≤ r.certainty))).length ≤ k ∧
      (((fetchedDocs st ranked k fs).map (toSearchResult cf)).filter
          (fun r => decide (th ≤ r.certainty))).all
        (fun r => decide (th ≤ r.certainty)) = true) ∧
    (search noFaults ⟨[c3_low, c3_high], 2⟩ c3_score id 1 none 1 =
      .ok [] ∧
     ((⟨[c3_low, c3_high], 2⟩ : StoreState).docs.filter
        (fun d => decide ((1 : ℚ) ≤ c3_score d))).length = 1) := by
  refine ⟨fun st cf ranked k fs th => ⟨rfl, ?_, ?_⟩, ?_, ?_⟩
  · calc (((fetchedDocs st ranked k fs).map (toSearchResult cf)).filter
          (fun r => decide (th ≤ r.certainty))).length
        ≤ ((fetchedDocs st ranked k fs).map (toSearchResult cf)).length :=
          List.length_filter_le _ _
      _ = (fetchedDocs st ranked k fs).length := List.length_map _ _
      _ ≤ k := by
          simp [fetchedDocs, List.length_take]
  · exact List.all_eq_true.mpr fun r hr => (List.mem_filter.mp hr).2
  · simp [search, fetchedDocs, filterPred, toSearchResult, c3_score,
      c3_low, c3_high, noFaults, (by norm_num : ¬((1 : ℚ) ≤ 0))]
  · simp [c3_score, c3_low, c3_high, (by norm_num : ¬((1 : ℚ) ≤ 0))]

/-- C10 amended: on every submit that actually inserts (result is a store
id), the serialized metadata stored with the document contains the keys
`etf_code`, `etf_name`, `source`, `etf_type` set to the call's own
parameter values, overwriting caller-supplied entries with those keys; the
caller's additional-metadata mapping is mutated in place to that merged
mapping exactly when it is non-empty — an empty supplied mapping is falsy
in `additional_metadata or {}`, so the merge happens on a fresh dict and
the caller's mapping is left unchanged. -/
theorem c10_amended_metadata_merge_and_conditional_mutation
    (settings : Settings) (st : StoreState)
    (code nm body src ty cat : String) (m : PyDict) (check : Bool)
    (now : String) (u : Nat)
    (h : (insert_document settings noFaults st code nm body src ty cat
        (some m) check now).result = .ok (some u)) :
    ∃ d : StoredDoc,
      (insert_document settings noFaults st code nm body src ty cat
        (some m) check now).store.docs = st.docs ++ [d] ∧
      d.metadata_json.get? "etf_code" = some code ∧
      d.metadata_json.get? "etf_name" = some nm ∧
      d.metadata_json.get? "source" = some src ∧
      d.metadata_json.get? "etf_type" = some ty ∧
      (m ≠ [] → (insert_document settings noFaults st code nm body src ty
        cat (some m) check now).callerMeta = some d.metadata_json) ∧
      (m = [] → (insert_document settings noFaults st code nm body src ty
        cat (some m) check now).callerMeta = some m) := by
  by_cases hdup : (check && settings.enable_duplicate_check &&
      check_duplicate noFaults st code (compute_content_hash body)) = true
  · simp [insert_document, hdup] at h
  · have hdup' : (check && settings.enable_duplicate_check &&
        check_duplicate noFaults st code (compute_content_hash body)) =
        false := by
      simp only [Bool.not_eq_true] at hdup
      exact hdup
    refine ⟨⟨st.nextUuid, code, nm, body, compute_content_hash body, now,
      (if settings.keep_history then
        get_latest_version noFaults st code + 1 else 1),
      src, ty, cat,
      PyDict.update m
        [("etf_code", code), ("etf_name", nm), ("source", src),
         ("etf_type", ty)]⟩, ?_, ?_, ?_, ?_, ?_, ?_, ?_⟩
    · simp [insert_document, hdup', data_insert_noFaults]
    · show (PyDict.update m _).get? "etf_code" = some code
      simp only [PyDict.update, List.foldl]
      rw [PyDict.get?_setItem_ne _ _ (by decide),
        PyDict.get?_setItem_ne _ _ (by decide),
        PyDict.get?_setItem_ne _ _ (by decide),
        PyDict.get?_setItem_self]
    · show (PyDict.update m _).get? "etf_name" = some nm
      simp only [PyDict.update, List.foldl]
      rw [PyDict.get?_setItem_ne _ _ (by decide),
        PyDict.get?_setItem_ne _ _ (by decide),
        PyDict.get?_setItem_self]
    · show (PyDict.update m _).get? "source" = some src
      simp only [PyDict.update, List.foldl]
      rw [PyDict.get?_setItem_ne _ _ (by decide),
        PyDict.get?_setItem_self]
    · show (PyDict.update m _).get? "etf_type" = some ty
      simp only [PyDict.update, List.foldl]
      rw [PyDict.get?_setItem_self]
    · intro hm
      have hne : m.isEmpty = false := by
        cases m with
        | nil => exact absurd rfl hm
        | cons a l => rfl
      simp [insert_document, hdup', data_insert_noFaults, hne, hm]
    · intro hm
      subst hm
      simp [insert_document, hdup', data_insert_noFaults]

/-- Witness for C10 amended at a concrete input: a successful submit with
a non-empty caller mapping containing a stale "etf_code" entry stores the
merged metadata with the parameter values and mutates the caller's mapping
to that merged mapping. -/
theorem c10_amended_witness :
    ∃ d : StoredDoc,
      (insert_document ⟨true, true, 7/10, 5⟩ noFaults ⟨[], 0⟩ "X" "NameX"
        "bodyX" "srcX" "typeX" ""
        (some [("price", "100"), ("etf_code", "OLD")]) true
        "d1").store.docs = ([] : List StoredDoc) ++ [d] ∧
      d.metadata_json.get? "etf_code" = some "X" ∧
      d.metadata_json.get? "etf_name" = some "NameX" ∧
      d.metadata_json.get? "source" = some "srcX" ∧
      d.metadata_json.get? "etf_type" = some "typeX" ∧
      ([("price", "100"), ("etf_code", "OLD")] ≠ ([] : PyDict) →
        (insert_document ⟨true, true, 7/10, 5⟩ noFaults ⟨[], 0⟩ "X"
          "NameX" "bodyX" "srcX" "typeX" ""
          (some [("price", "100"), ("etf_code", "OLD")]) true
          "d1").callerMeta = some d.metadata_json) ∧
      ([("price", "100"), ("etf_code", "OLD")] = ([] : PyDict) →
        (insert_document ⟨true, true, 7/10, 5⟩ noFaults ⟨[], 0⟩ "X"
          "NameX" "bodyX" "srcX" "typeX" ""
          (some [("price", "100"), ("etf_code", "OLD")]) true
          "d1").callerMeta = some [("price", "100"), ("etf_code", "OLD")]) :=
  c10_amended_metadata_merge_and_conditional_mutation
    ⟨true, true, 7/10, 5⟩ ⟨[], 0⟩ "X" "NameX" "bodyX" "srcX" "typeX" ""
    [("price", "100"), ("etf_code", "OLD")] true "d1" 0 rfl

set_option maxRecDepth 4000 in
/-- C5: the claim says `summarize(identifier)` returns the key attributes
and a body-prefix preview of the stored document with the **highest
version**, and the count of **all** stored versions.  The code contradicts
this (and its own `# Use most recent version` / `# Get all documents`
comments): it summarizes `results[0]` of a dummy-vector search, i.e. the
first hit in the store-defined ranking — which carries no version
information — and counts at most the `limit=10` fetched hits.  At the
failing input `c5_store2` (versions 1 and 2 of "069500", version 1 first
in the ranking) the summary reports the version-1 document's name, date
and preview instead of version 2's (the preview is the version-1 body's
500-character prefix with "..." appended); and at `c5_store11` (eleven
versions) the reported version count is 10, not 11. -/
theorem c5_summary_is_first_hit_and_count_capped_not_highest_version :
    ((get_etf_summary noFaults c5_store2 (fun _ => 0) id "069500").map
      EtfSummary.etf_name) = some "KODEX v1" ∧
    ((get_etf_summary noFaults c5_store2 (fun _ => 0) id "069500").map
      EtfSummary.last_updated) = some "d1" ∧
    ((get_etf_summary noFaults c5_store2 (fun _ => 0) id "069500").map
      EtfSummary.content_preview) = some ("OLD".take 500 ++ "...") ∧
    ((get_etf_summary noFaults c5_store2 (fun _ => 0) id "069500").map
      EtfSummary.num_versions) = some 2 ∧
    ((get_etf_summary noFaults c5_store11 (fun _ => 0) id "X").map
      EtfSummary.num_versions) = some 10 ∧
    (c5_store11.docs.filter (fun d => d.etf_code == "X")).length = 11 := by
  refine ⟨rfl, rfl, rfl, rfl, rfl, rfl⟩

/-- C6: pruning an identifier with M stored versions down to `keep_count`
N deletes nothing when M ≤ N, and otherwise leaves exactly N documents for
that identifier — every kept document's version strictly exceeds every
deleted one's, so the N highest versions remain — while documents of other
identifiers are untouched.  Stated under the store invariants that object
ids are unique and that the identifier's stored versions are pairwise
distinct (which history-retention insertion is meant to maintain). -/
theorem c6_prune_keeps_exactly_top_versions
    (st : StoreState) (code : String) (N : Nat) (st' : StoreState)
    (huuid : (st.docs.map StoredDoc.uuid).Nodup)
    (hver : ((st.docs.filter (fun d => d.etf_code == code)).map
        StoredDoc.version).Nodup)
    (h : delete_old_versions noFaults st code N = .ok st') :
    ((st.docs.filter (fun d => d.etf_code == code)).length ≤ N →
      st' = st) ∧
    (N < (st.docs.filter (fun d => d.etf_code == code)).length →
      (st'.docs.filter (fun d => d.etf_code == code)).length = N ∧
      st'.docs.filter (fun d => !(d.etf_code == code)) =
        st.docs.filter (fun d => !(d.etf_code == code)) ∧
      (∀ d ∈ st'.docs, d.etf_code = code →
        ∀ e ∈ st.docs, e.etf_code = code → e ∉ st'.docs →
          e.version < d.version)) := by
  simp only [delete_old_versions, fetch_objects_noFaults] at h
  by_cases hle : (st.docs.filter (fun d => d.etf_code == code)).length ≤ N
  · rw [if_pos hle] at h
    simp only [Except.ok.injEq] at h
    exact ⟨fun _ => h.symm, fun hlt => absurd hlt (not_lt.mpr hle)⟩
  · rw [if_neg hle] at h
    simp only [Except.ok.injEq] at h
    push_neg at hle
    set S := st.docs.filter (fun d => d.etf_code == code) with hS
    set L := S.insertionSort versionGE with hL
    set T := L.take N with hT
    set D := L.drop N with hD
    have hdocs : st'.docs =
        st.docs.filter (fun d => D.all (fun e => d.uuid != e.uuid)) := by
      rw [← h, deleteLoop_noFaults, foldl_filter_all]
    have hperm : List.Perm L S := List.perm_insertionSort versionGE S
    have hsorted : List.Sorted versionGE L :=
      List.sorted_insertionSort versionGE S
    have hTD : T ++ D = L := List.take_append_drop N L
    have hSsub : List.Sublist S st.docs := by
      rw [hS]
      exact List.filter_sublist st.docs
    have huuidS : (S.map StoredDoc.uuid).Nodup :=
      List.Nodup.sublist (hSsub.map StoredDoc.uuid) huuid
    have huuidL : (L.map StoredDoc.uuid).Nodup :=
      (hperm.symm.map StoredDoc.uuid).nodup huuidS
    have hverL : (L.map StoredDoc.version).Nodup :=
      (hperm.symm.map StoredDoc.version).nodup hver
    have hmemTL : ∀ x ∈ T, x ∈ L := fun x hx => List.take_subset N L hx
    have hmemDL : ∀ x ∈ D, x ∈ L := fun x hx => List.drop_subset N L hx
    have hdisj : ∀ x, x ∈ T → x ∈ D → False := by
      have hnodupL : L.Nodup := List.Nodup.of_map StoredDoc.version hverL
      rw [← hTD] at hnodupL
      intro x hxT hxD
      exact (List.nodup_append.mp hnodupL).2.2 hxT hxD
    have hq_of_T : ∀ x ∈ T, (D.all (fun e => x.uuid != e.uuid)) = true := by
      intro x hxT
      apply List.all_eq_true.mpr
      intro e heD
      simp only [bne_iff_ne, ne_eq]
      intro heq
      have hxe : x = e :=
        nodup_map_inj huuidL (hmemTL x hxT) (hmemDL e heD) heq
      cases hxe
      exact hdisj x hxT heD
    have hq_not_of_D :
        ∀ e ∈ D, ¬((D.all (fun e2 => e.uuid != e2.uuid)) = true) := by
      intro e heD hall
      have hcon := List.all_eq_true.mp hall e heD
      simp at hcon
    have hLq : L.filter (fun d => D.all (fun e => d.uuid != e.uuid)) = T := by
      rw [← hTD, List.filter_append,
        List.filter_eq_self.mpr hq_of_T,
        List.filter_eq_nil_iff.mpr hq_not_of_D]
      exact List.append_nil T
    have hkeptEq : st'.docs.filter (fun d => d.etf_code == code) =
        S.filter (fun d => D.all (fun e => d.uuid != e.uuid)) := by
      rw [hdocs, hS, List.filter_filter, List.filter_filter]
      exact List.filter_congr fun x _ => Bool.and_comm _ _
    have hkeptPerm : List.Perm (st'.docs.filter (fun d => d.etf_code == code)) T := by
      rw [hkeptEq]
      have hp := (hperm.filter
        (fun d => D.all (fun e => d.uuid != e.uuid))).symm
      rw [hLq] at hp
      exact hp
    have hlen : (st'.docs.filter (fun d => d.etf_code == code)).length =
        N := by
      rw [hkeptPerm.length_eq, hT, List.length_take]
      apply min_eq_left
      rw [hperm.length_eq]
      exact le_of_lt hle
    have hnon : st'.docs.filter (fun d => !(d.etf_code == code)) =
        st.docs.filter (fun d => !(d.etf_code == code)) := by
      rw [hdocs, List.filter_filter]
      apply List.filter_congr
      intro x hx
      by_cases hcx : (x.etf_code == code) = true
      · simp [hcx]
      · have hqx : (D.all (fun e => x.uuid != e.uuid)) = true := by
          apply List.all_eq_true.mpr
          intro e heD
          simp only [bne_iff_ne, ne_eq]
          intro heq
          have heS : e ∈ S := hperm.mem_iff.mp (hmemDL e heD)
          rw [hS] at heS
          obtain ⟨heSt, heCode⟩ := List.mem_filter.mp heS
          have hxe : x = e := nodup_map_inj huuid hx heSt heq
          cases hxe
          exact hcx heCode
        simp [hcx, hqx]
    refine ⟨fun hle' => absurd hle' (not_le.mpr hle), fun _ =>
      ⟨hlen, hnon, ?_⟩⟩
    intro d hd hdcode e he hecode henotin
    have hdq : d ∈ st.docs.filter
        (fun d2 => D.all (fun e2 => d2.uuid != e2.uuid)) := by
      rw [← hdocs]
      exact hd
    obtain ⟨hdSt, hdqx⟩ := List.mem_filter.mp hdq
    have hdS : d ∈ S := by
      rw [hS]
      exact List.mem_filter.mpr ⟨hdSt, by simp [hdcode]⟩
    have hdL : d ∈ L := hperm.mem_iff.mpr hdS
    have hdT : d ∈ T := by
      rw [← hTD] at hdL
      rcases List.mem_append.mp hdL with h' | h'
      · exact h'
      · exact absurd hdqx (hq_not_of_D d h')
    have heS : e ∈ S := by
      rw [hS]
      exact List.mem_filter.mpr ⟨he, by simp [hecode]⟩
    have heL : e ∈ L := hperm.mem_iff.mpr heS
    have heqx : ¬((D.all (fun e2 => e.uuid != e2.uuid)) = true) := by
      intro hq
      apply henotin
      rw [hdocs]
      exact List.mem_filter.mpr ⟨he, hq⟩
    have heD : e ∈ D := by
      rw [← hTD] at heL
      rcases List.mem_append.mp heL with h' | h'
      · exact absurd (hq_of_T e h') heqx
      · exact h'
    have hge : versionGE d e := by
      have hp : List.Pairwise versionGE L := hsorted
      rw [← hTD] at hp
      exact (List.pairwise_append.mp hp).2.2 d hdT e heD
    have hne : d ≠ e := fun hde => hdisj d hdT (hde ▸ heD)
    have hvne : d.version ≠ e.version :=
      fun hv => hne (nodup_map_inj hverL hdL heL hv)
    exact lt_of_le_of_ne hge fun hv => hvne hv.symm

/-- Witness for C6 at a concrete input: pruning identifier "X" (stored
versions 1, 2, 3) down to one version leaves exactly the version-3
document of "X" and the untouched "Y" document. -/
theorem c6_witness :
    ((c6_store.docs.filter (fun d => d.etf_code == "X")).length ≤ 1 →
      c6_pruned = c6_store) ∧
    (1 < (c6_store.docs.filter (fun d => d.etf_code == "X")).length →
      (c6_pruned.docs.filter (fun d => d.etf_code == "X")).length = 1 ∧
      c6_pruned.docs.filter (fun d => !(d.etf_code == "X")) =
        c6_store.docs.filter (fun d => !(d.etf_code == "X")) ∧
      (∀ d ∈ c6_pruned.docs, d.etf_code = "X" →
        ∀ e ∈ c6_store.docs, e.etf_code = "X" → e ∉ c6_pruned.docs →
          e.version < d.version)) :=
  c6_prune_keeps_exactly_top_versions c6_store "X" 1 c6_pruned
    (by decide) (by decide) (by decide)

end ETFRag
